import Mathlib

/-!
# Verification of the notebooklm backend (ingestion / retrieval pipeline)

Shallow embedding of the core of `index.js`: the in-memory source
registry (`globalSourcesContext`), the Qdrant collection model, ingestion
(`createAndStoreEmbeddings` / `storeEmbeddings`), the clear and remove
endpoint handlers, collection lifecycle (`ensureCollection`), and the
chat / system-prompt assembly.

JavaScript strings are modelled as Lean `String` (a list of characters),
JS numbers arising here as `Nat`, and the external services (OpenAI
embeddings, Qdrant, chat completion) as explicit parameters / flags with
the behaviour the repository documents for them.
-/

namespace NotebookLM

/-- Metadata objects passed to `createAndStoreEmbeddings` / `storeEmbeddings`
and `updateGlobalContext` (`index.js`): `{type, title, url?, source?, timestamp}`.
Absent JS fields are `none`. -/
structure Metadata where
  type : String
  title : String
  url : Option String := none
  src : Option String := none
  timestamp : Option String := none
  deriving DecidableEq, Repr

/-- One entry of `globalSourcesContext` (the Source Registry), as built by
`updateGlobalContext` in `index.js` lines 99-115. -/
structure SourceInfo where
  id : String
  type : String
  title : String
  content : String
  timestamp : String
  url : Option String
  deriving DecidableEq, Repr

/-- Models `s.substring(0, n)` of JavaScript: the first `n` characters
(all of `s` if it is shorter). -/
def jsSubstring0 (s : String) (n : Nat) : String :=
  ⟨s.data.take n⟩

/-- Models the JS `||` fallback on an optional string field
(`metadata.timestamp || new Date().toISOString()`): an absent or empty
(falsy) string is replaced by the default. -/
def jsOrString (o : Option String) (d : String) : String :=
  match o with
  | none => d
  | some s => if s = "" then d else s

/-- The excerpt stored in the registry:
`content.substring(0, 200) + "..."` (`index.js` line 104). -/
def excerptOf (content : String) : String :=
  jsSubstring0 content 200 ++ "..."

/-- The id generated at ingestion time (`index.js` line 101):
`` `source_${Date.now()}_${Math.random().toString(36).substr(2, 9)}` ``.
`t` is the value of `Date.now()` (stringified in decimal) and `r` the
base-36 fractional suffix drawn from `Math.random()`. -/
def genId (t : Nat) (r : String) : String :=
  "source_" ++ Nat.repr t ++ "_" ++ r

/-- The `sourceInfo` object built by `updateGlobalContext`
(`index.js` lines 100-110). `now` is `new Date().toISOString()`. -/
def mkSourceInfo (t : Nat) (r : String) (now : String)
    (md : Metadata) (content : String) : SourceInfo :=
  { id := genId t r
  , type := md.type
  , title := md.title
  , content := excerptOf content
  , timestamp := jsOrString md.timestamp now
  , url := md.url }

/-- Models `updateGlobalContext(metadata, content)` (`index.js` lines 99-115):
builds a `sourceInfo` and pushes it onto `globalSourcesContext`. -/
def updateGlobalContext (t : Nat) (r : String) (now : String)
    (md : Metadata) (content : String)
    (registry : List SourceInfo) : List SourceInfo :=
  registry ++ [mkSourceInfo t r now md content]

/-- A chunk record held by the Qdrant collection: the `{pageContent, metadata}`
document upserted by `QdrantVectorStore.fromDocuments` (`index.js` lines 66-69). -/
structure Chunk where
  pageContent : String
  metadata : Metadata
  deriving DecidableEq, Repr

/-- The single named Qdrant collection `personal-notebooklm`:
its creation-time vector size, distance metric, and stored points. -/
structure Collection where
  size : Nat
  distance : String
  points : List Chunk
  deriving DecidableEq, Repr

/-- The vector store state: the named collection, if it exists. -/
abbrev Store := Option Collection

/-- Dimensionality of the embedding model `text-embedding-3-large` used by
every ingestion and query path in `index.js`. Per the repository README:
"Model: OpenAI text-embedding-3-large (3072 dimensions)", and
`ensureCollection` creates the collection with `size: 3072`. -/
def embeddingDim : Nat := 3072

/-- Models `QdrantVectorStore.fromDocuments` with the fixed collection name,
as used by every ingestion path: if the collection does not exist it is
created with the embedding model's dimensionality and Cosine distance and
the documents are upserted; if it exists, the upsert succeeds only when the
collection's vector size matches the embedding dimensionality (Qdrant
rejects points of the wrong dimension). -/
def fromDocumentsStore (st : Store) (docs : List Chunk) : Except String Store :=
  match st with
  | none => .ok (some ⟨embeddingDim, "Cosine", docs⟩)
  | some col =>
      if embeddingDim = col.size then
        .ok (some { col with points := col.points ++ docs })
      else
        .error "Bad Request: Vector dimension error"

/-- Models `ensureCollection()` (optimized `index.js`, lines 206-214): try
`getCollection("personal-notebooklm")`; if that fails because the
collection does not exist, create it with
`{vectors: {size: 3072, distance: "Cosine"}}`. -/
def ensureCollection (st : Store) : Store :=
  match st with
  | some col => some col
  | none => some ⟨3072, "Cosine", []⟩

/-- Environment inputs an ingestion call draws from the outside world:
`Date.now()`, the `Math.random()` suffix, and `new Date().toISOString()`. -/
structure IngestEnv where
  t : Nat
  r : String
  now : String
  deriving DecidableEq, Repr

/-- Result of one ingestion helper call: the thrown-or-returned outcome,
the registry afterwards, and the store afterwards. -/
structure IngestResult where
  outcome : Except String Unit
  registry : List SourceInfo
  store : Store
  deriving Repr

/-- Models `createAndStoreEmbeddings(text, metadata)` (`index.js` lines 57-96):
throw if `OPENAI_API_KEY` is unset; test the Qdrant connection with
`getCollections()` (throws when the store is unreachable);
`QdrantVectorStore.fromDocuments` embeds the document (throws when the
embedding service fails — `embedOk`) and upserts it; only on success of
all of that, `updateGlobalContext` appends to the registry. -/
def createAndStoreEmbeddings (apiKeySet storeReachable embedOk : Bool)
    (env : IngestEnv) (text : String) (md : Metadata)
    (registry : List SourceInfo) (st : Store) : IngestResult :=
  if ¬apiKeySet then
    ⟨.error "OPENAI_API_KEY environment variable is not set", registry, st⟩
  else if ¬storeReachable then
    ⟨.error "Cannot connect to Qdrant", registry, st⟩
  else if ¬embedOk then
    ⟨.error "embedding request failed", registry, st⟩
  else
    match fromDocumentsStore st [⟨text, md⟩] with
    | .error e => ⟨.error e, registry, st⟩
    | .ok st' => ⟨.ok (), updateGlobalContext env.t env.r env.now md text registry, st'⟩

/-- Models `storeEmbeddings(text, metadata)` (optimized `index.js`, lines 217-247):
same key check, then `fromDocuments` (embed + upsert), then the registry
push of the `sourceInfo` — the push happens only after the store write. -/
def storeEmbeddings (apiKeySet embedOk : Bool)
    (env : IngestEnv) (text : String) (md : Metadata)
    (registry : List SourceInfo) (st : Store) : IngestResult :=
  if ¬apiKeySet then
    ⟨.error "OPENAI_API_KEY environment variable is not set", registry, st⟩
  else if ¬embedOk then
    ⟨.error "embedding request failed", registry, st⟩
  else
    match fromDocumentsStore st [⟨text, md⟩] with
    | .error e => ⟨.error e, registry, st⟩
    | .ok st' => ⟨.ok (), registry ++ [mkSourceInfo env.t env.r env.now md text], st'⟩

/-- Result of an HTTP endpoint handler that can touch registry and store:
response status, the `totalSources` field of the JSON body when present,
and the states afterwards. -/
structure HandlerResult where
  status : Nat
  totalSources : Nat
  registry : List SourceInfo
  store : Store
  deriving Repr

/-- Models `POST /api/embed-pdf` (`index.js` lines 332-379), stateful core: 400
without a file; PDF loading, the key check, embedding and the store write
each throw to the catch (500) leaving the registry untouched; on store
success the pages' joined content is appended via `updateGlobalContext`. -/
def embedPdfHandler (hasFile pdfLoadOk apiKeySet embedOk : Bool)
    (env : IngestEnv) (originalname : String) (pages : List String)
    (registry : List SourceInfo) (st : Store) : HandlerResult :=
  if ¬hasFile then ⟨400, registry.length, registry, st⟩
  else if ¬pdfLoadOk then ⟨500, registry.length, registry, st⟩
  else if ¬apiKeySet then ⟨500, registry.length, registry, st⟩
  else if ¬embedOk then ⟨500, registry.length, registry, st⟩
  else
    let md : Metadata := { type := "pdf", title := originalname, timestamp := some env.now }
    match fromDocumentsStore st (pages.map fun p => ⟨p, md⟩) with
    | .error _ => ⟨500, registry.length, registry, st⟩
    | .ok st' =>
        let registry' :=
          updateGlobalContext env.t env.r env.now md
            (String.intercalate "\n\n" pages) registry
        ⟨200, registry'.length, registry', st'⟩

/-- Models `DELETE /api/sources/clear` (`index.js` lines 265-300): the registry is
emptied first; then, inside an inner `try`, the collection is deleted and
recreated with `{vectors: {size: 1536, distance: "Cosine"}}`; any store
error there is caught and ignored ("Collection might not exist yet,
continuing..."), so the handler answers
`200 {message, totalSources: 0}` in every case. `deleteOk` / `createOk`
say whether the two Qdrant calls succeed or throw. -/
def clearHandler (deleteOk createOk : Bool)
    (registry : List SourceInfo) (st : Store) : HandlerResult :=
  let registry' : List SourceInfo := []
  if deleteOk then
    if createOk then
      ⟨200, 0, registry', some ⟨1536, "Cosine", []⟩⟩
    else
      -- delete succeeded, create threw: caught, collection stays deleted
      ⟨200, 0, registry', none⟩
  else
    -- deleteCollection threw: caught, store left as it was
    ⟨200, 0, registry', st⟩

/-- Models `DELETE /api/sources/:id` (`index.js` lines 303-330):
`findIndex` over `globalSourcesContext` by `id`; 404 when absent;
otherwise `splice(sourceIndex, 1)` and 200. No Qdrant call is made
(the comment at lines 317-319 documents that vectors are not removed). -/
def removeHandler (id : String)
    (registry : List SourceInfo) (st : Store) : HandlerResult :=
  match registry.findIdx? (fun s => s.id == id) with
  | none => ⟨404, registry.length, registry, st⟩
  | some i =>
      let registry' := registry.eraseIdx i
      ⟨200, registry'.length, registry', st⟩

/-- Models `Array.prototype.join(sep)`: elements concatenated with the
separator between consecutive elements. -/
def joinSep (sep : String) : List String → String
  | [] => ""
  | [a] => a
  | a :: b :: rest => a ++ sep ++ joinSep sep (b :: rest)

/-- One line of the sources summary (`index.js` line 121):
`` `- ${source.type.toUpperCase()}: ${source.title} (${source.timestamp})` ``. -/
def sourceLine (s : SourceInfo) : String :=
  "- " ++ s.type.toUpper ++ ": " ++ s.title ++ " (" ++ s.timestamp ++ ")"

/-- Models `sourcesSummary` (`index.js` lines 120-122): the per-source lines
joined with newlines, in registry (insertion) order. -/
def sourcesSummary (registry : List SourceInfo) : String :=
  joinSep "\n" (registry.map sourceLine)

/-- Models the string escaping `JSON.stringify` applies inside a JSON
string literal. -/
def jsonEscapeChar (c : Char) : String :=
  if c = '\\' then "\\\\"
  else if c = '\"' then "\\\""
  else if c = '\n' then "\\n"
  else if c = '\t' then "\\t"
  else if c = '\x0d' then "\\r"
  else String.singleton c

/-- Escape a whole string for inclusion in a JSON string literal. -/
def jsonEscape (s : String) : String :=
  String.join (s.data.map jsonEscapeChar)

/-- JSON rendering of one optional metadata field. -/
def renderOptField (name : String) (v : Option String) : String :=
  match v with
  | none => ""
  | some s => ",\n      \"" ++ name ++ "\": \"" ++ jsonEscape s ++ "\""

/-- Models `JSON.stringify` of one retrieved document
`{pageContent, metadata}` (2-space indentation). -/
def renderChunk (c : Chunk) : String :=
  "  \x7b\n    \"pageContent\": \"" ++ jsonEscape c.pageContent ++
  "\",\n    \"metadata\": \x7b\n      \"type\": \"" ++ jsonEscape c.metadata.type ++
  "\",\n      \"title\": \"" ++ jsonEscape c.metadata.title ++ "\"" ++
  renderOptField "url" c.metadata.url ++
  renderOptField "source" c.metadata.src ++
  renderOptField "timestamp" (c.metadata.timestamp.map jsonEscape) ++
  "\n    \x7d\n  \x7d"

/-- Models `JSON.stringify(relevantChunks, null, 2)` (`index.js` line 131):
a JSON array holding the retrieved documents in list order. -/
def renderChunks (cs : List Chunk) : String :=
  "[\n" ++ joinSep ",\n" (cs.map renderChunk) ++ "\n]"

/-- The fixed text of the system-prompt template (`index.js` lines 124-139)
before `${sourcesSummary}`. -/
def promptPrefix : String :=
  "\n    You are an AI assistant who helps resolve user queries based on the context available from their personal knowledge base.\n\n    AVAILABLE SOURCES IN KNOWLEDGE BASE:\n    "

/-- The fixed template text between `${sourcesSummary}` and the
`JSON.stringify` of the retrieved chunks. -/
def promptMid : String :=
  "\n\n    RELEVANT CONTEXT FOR THIS QUERY:\n    "

/-- The fixed template text after the retrieved chunks: the grounding
instructions. -/
def promptSuffix : String :=
  "\n\n    INSTRUCTIONS:\n    1. Only answer based on the available context from the sources above\n    2. If the context doesn\x27t contain enough information, say so\n    3. Reference specific sources when possible\n    4. Be helpful and accurate based on the provided information\n    5. If asked about sources not in the context, inform the user\n  "

/-- Models `generateSystemPrompt(relevantChunks)` (`index.js` lines 118-140). -/
def generateSystemPrompt (registry : List SourceInfo)
    (relevantChunks : List Chunk) : String :=
  promptPrefix ++ sourcesSummary registry ++ promptMid ++
    renderChunks relevantChunks ++ promptSuffix

/-- What `chat(userInput)` returns (`index.js` lines 181-184). -/
structure ChatResult where
  text : String
  sourceDocuments : List Chunk
  deriving Repr

/-- Models `chat(userInput)` (`index.js` lines 143-189). The store's
nearest-neighbour search (`vectorStore.asRetriever({k}).invoke(query)`) is
the external similarity engine, modelled as `search : Nat → List Chunk`
keyed by `k` and returning the ranked neighbours; the generation service
(`client.chat.completions.create`) is modelled as
`complete : String → String → String` on (system prompt, user turn).
The code retrieves with `k: 5`, builds the system prompt from the registry
and the retrieved chunks, and returns the completion text together with
the raw retrieved list. -/
def chat (registry : List SourceInfo) (search : Nat → List Chunk)
    (complete : String → String → String) (userInput : String) : ChatResult :=
  let relevantChunk := search 5
  let systemPrompt := generateSystemPrompt registry relevantChunk
  { text := complete systemPrompt userInput
  , sourceDocuments := relevantChunk }

/-! ### Decimal-representation helpers

`genId` interpolates `Date.now()` in decimal; to reason about collisions
we need that `Nat.repr` emits only digit characters and is injective. -/

/-- The numeric value of a decimal digit character. -/
def decimalVal (c : Char) : Nat := c.toNat - 48

/-- Fold a decimal digit string back into the number it denotes. -/
def decFold (l : List Char) : Nat :=
  l.foldl (fun a c => a * 10 + decimalVal c) 0

lemma digitChar_ne_underscore {d : Nat} (h : d < 10) :
    Nat.digitChar d ≠ '_' := by
  interval_cases d <;> decide

lemma decimalVal_digitChar {d : Nat} (h : d < 10) :
    decimalVal (Nat.digitChar d) = d := by
  interval_cases d <;> decide

lemma toDigitsCore_mem {fuel n : Nat} {ds : List Char} {c : Char}
    (hc : c ∈ Nat.toDigitsCore 10 fuel n ds) :
    (∃ d, d < 10 ∧ c = Nat.digitChar d) ∨ c ∈ ds := by
  induction fuel generalizing n ds with
  | zero => exact .inr hc
  | succ fuel ih =>
    simp only [Nat.toDigitsCore] at hc
    by_cases h : n / 10 = 0
    · simp only [h, if_pos] at hc
      rcases List.mem_cons.mp hc with rfl | hmem
      · exact .inl ⟨n % 10, Nat.mod_lt _ (by omega), rfl⟩
      · exact .inr hmem
    · simp only [h, if_neg, if_false] at hc
      rcases ih hc with hdig | hmem
      · exact .inl hdig
      · rcases List.mem_cons.mp hmem with rfl | hmem'
        · exact .inl ⟨n % 10, Nat.mod_lt _ (by omega), rfl⟩
        · exact .inr hmem'

lemma toDigitsCore_append (fuel : Nat) :
    ∀ (n : Nat) (ds : List Char),
      Nat.toDigitsCore 10 fuel n ds = Nat.toDigitsCore 10 fuel n [] ++ ds := by
  induction fuel with
  | zero => intro n ds; rfl
  | succ fuel ih =>
    intro n ds
    simp only [Nat.toDigitsCore]
    by_cases h : n / 10 = 0
    · simp [h]
    · simp only [h, if_neg, if_false]
      rw [ih (n / 10) (Nat.digitChar (n % 10) :: ds),
        ih (n / 10) (Nat.digitChar (n % 10) :: [])]
      simp

lemma toDigitsCore_fuel (n : Nat) :
    ∀ (f1 f2 : Nat), n < f1 → n < f2 →
      Nat.toDigitsCore 10 f1 n [] = Nat.toDigitsCore 10 f2 n [] := by
  induction n using Nat.strong_induction_on with
  | _ n ih =>
    intro f1 f2 h1 h2
    cases f1 with
    | zero => omega
    | succ g1 =>
      cases f2 with
      | zero => omega
      | succ g2 =>
        simp only [Nat.toDigitsCore]
        by_cases h : n / 10 = 0
        · simp [h]
        · simp only [h, if_neg, if_false]
          have hn : 0 < n := by
            rcases Nat.eq_zero_or_pos n with rfl | hp
            · simp at h
            · exact hp
          have hlt : n / 10 < n := Nat.div_lt_self hn (by omega)
          rw [toDigitsCore_append g1, toDigitsCore_append g2,
            ih (n / 10) hlt g1 g2 (by omega) (by omega)]

lemma toDigits_eq_of_lt {n : Nat} (h : n < 10) :
    Nat.toDigits 10 n = [Nat.digitChar n] := by
  simp [Nat.toDigits, Nat.toDigitsCore, Nat.div_eq_of_lt h, Nat.mod_eq_of_lt h]

lemma toDigits_eq_of_ge {n : Nat} (h : 10 ≤ n) :
    Nat.toDigits 10 n =
      Nat.toDigits 10 (n / 10) ++ [Nat.digitChar (n % 10)] := by
  have h10 : n / 10 ≠ 0 := by
    have : 0 < n / 10 := Nat.div_pos h (by omega)
    omega
  show Nat.toDigitsCore 10 (n + 1) n [] = _
  simp only [Nat.toDigitsCore, h10, if_neg, if_false]
  rw [toDigitsCore_append n]
  have hlt : n / 10 < n := Nat.div_lt_self (by omega) (by omega)
  rw [toDigitsCore_fuel (n / 10) n (n / 10 + 1) (by omega) (Nat.lt_succ_self _)]
  rfl

lemma decFold_toDigits (n : Nat) : decFold (Nat.toDigits 10 n) = n := by
  induction n using Nat.strong_induction_on with
  | _ n ih =>
    by_cases h : n < 10
    · rw [toDigits_eq_of_lt h]
      simp [decFold, decimalVal_digitChar h]
    · push_neg at h
      rw [toDigits_eq_of_ge h]
      have hlt : n / 10 < n := Nat.div_lt_self (by omega) (by omega)
      have hmod : n % 10 < 10 := Nat.mod_lt _ (by omega)
      have hrec := ih (n / 10) hlt
      simp only [decFold, List.foldl_append] at hrec ⊢
      rw [hrec]
      simp [decimalVal_digitChar hmod]
      omega

lemma natRepr_injective : Function.Injective Nat.repr := by
  intro a b h
  have hdig : Nat.toDigits 10 a = Nat.toDigits 10 b := by
    have hd := congrArg String.data h
    simpa [Nat.repr, List.asString] using hd
  have := congrArg decFold hdig
  rwa [decFold_toDigits, decFold_toDigits] at this

lemma natRepr_no_underscore (n : Nat) : '_' ∉ (Nat.repr n).data := by
  intro hmem
  have hmem' : '_' ∈ Nat.toDigitsCore 10 (n + 1) n [] := by
    simpa [Nat.repr, Nat.toDigits, List.asString] using hmem
  rcases toDigitsCore_mem hmem' with ⟨d, hd, hc⟩ | hfalse
  · exact digitChar_ne_underscore hd hc.symm
  · simp at hfalse

lemma append_underscore_inj {r1 r2 : List Char} :
    ∀ (d1 d2 : List Char), '_' ∉ d1 → '_' ∉ d2 →
      d1 ++ '_' :: r1 = d2 ++ '_' :: r2 → d1 = d2 ∧ r1 = r2 := by
  intro d1
  induction d1 with
  | nil =>
    intro d2 _ h2 heq
    cases d2 with
    | nil => simpa using heq
    | cons y d2 =>
      simp only [List.nil_append, List.cons_append, List.cons.injEq] at heq
      exact absurd (heq.1 ▸ List.mem_cons_self y d2) h2
  | cons x d1 ih =>
    intro d2 h1 h2 heq
    cases d2 with
    | nil =>
      simp only [List.nil_append, List.cons_append, List.cons.injEq] at heq
      exact absurd (heq.1.symm ▸ List.mem_cons_self x d1) h1
    | cons y d2 =>
      simp only [List.cons_append, List.cons.injEq] at heq
      obtain ⟨rfl, heq⟩ := heq
      have hrec := ih d2 (fun hm => h1 (List.mem_cons_of_mem _ hm))
        (fun hm => h2 (List.mem_cons_of_mem _ hm)) heq
      exact ⟨by rw [hrec.1], hrec.2⟩

lemma genId_inj {t1 t2 : Nat} {r1 r2 : String}
    (h : genId t1 r1 = genId t2 r2) : t1 = t2 ∧ r1 = r2 := by
  have hd := congrArg String.data h
  simp only [genId, String.data_append] at hd
  have hd2 : ['s', 'o', 'u', 'r', 'c', 'e', '_'] ++
        ((Nat.repr t1).data ++ '_' :: r1.data) =
      ['s', 'o', 'u', 'r', 'c', 'e', '_'] ++
        ((Nat.repr t2).data ++ '_' :: r2.data) := by
    simpa [List.append_assoc] using hd
  have hd' := List.append_cancel_left hd2
  have hsplit := append_underscore_inj (Nat.repr t1).data (Nat.repr t2).data
    (natRepr_no_underscore t1) (natRepr_no_underscore t2) hd'
  constructor
  · exact natRepr_injective (String.ext hsplit.1)
  · exact String.ext hsplit.2

/-! ### Generic helpers about the embedding -/

/-- The chunk records currently held by the store. -/
def storeChunks : Store → List Chunk
  | none => []
  | some col => col.points

/-- An infix of a middle string is an infix of any surrounding
concatenation. -/
lemma infix_of_middle {x : List Char} {mid : String} (pre post : String)
    (h : x <:+: mid.data) : x <:+: (pre ++ mid ++ post).data := by
  obtain ⟨u, v, huv⟩ := h
  refine ⟨pre.data ++ u, v ++ post.data, ?_⟩
  simp only [String.data_append, ← huv, List.append_assoc]

/-- Every element of a joined list occurs verbatim inside the join. -/
lemma joinSep_data_infix {x : String} (sep : String) :
    ∀ {l : List String}, x ∈ l → x.data <:+: (joinSep sep l).data := by
  intro l
  induction l with
  | nil => intro h; simp at h
  | cons a rest ih =>
    intro h
    cases rest with
    | nil =>
      rcases List.mem_cons.mp h with rfl | hmem
      · exact List.infix_rfl
      · simp at hmem
    | cons b rs =>
      rcases List.mem_cons.mp h with rfl | hmem
      · refine ⟨[], (sep ++ joinSep sep (b :: rs)).data, ?_⟩
        simp [joinSep, String.data_append, List.append_assoc]
      · obtain ⟨u, v, huv⟩ := ih hmem
        refine ⟨(a ++ sep).data ++ u, v, ?_⟩
        simp only [joinSep, String.data_append, List.append_assoc] at huv ⊢
        rw [huv]

/-- Sample metadata, as built by the `POST /api/embed-text` endpoint. -/
def sampleMd : Metadata :=
  { type := "text", title := "Note1", src := some "user_input"
  , timestamp := some "2024-01-01T00:00:00.000Z" }

/-- A second sample metadata with a different title. -/
def sampleMd2 : Metadata :=
  { type := "text", title := "Note2", src := some "user_input"
  , timestamp := some "2024-01-02T00:00:00.000Z" }

/-- Sample environment inputs of an ingestion. -/
def sampleEnv : IngestEnv := ⟨5, "abc", "2024-01-01T00:00:00.000Z"⟩

/-- The registry entry produced by ingesting the sample text. -/
def sampleSource : SourceInfo :=
  mkSourceInfo 5 "abc" "2024-01-01T00:00:00.000Z" sampleMd "The sky is blue."

/-- The registry entry produced by ingesting a second sample text. -/
def sampleSource2 : SourceInfo :=
  mkSourceInfo 7 "zzz" "2024-01-02T00:00:00.000Z" sampleMd2 "Grass is green."

/-- A 10000-character text, for the excerpt boundary check. -/
def longText : String := ⟨List.replicate 10000 'a'⟩

/-- A 203-character text that ends in the ellipsis marker: 200 times
letter a followed by three dots. -/
def selfExcerptText : String := ⟨List.replicate 200 'a'⟩ ++ "..."

/-! ### Claim theorems -/

/-- Claim C3, counterexample: with the Qdrant `deleteCollection` call
failing (a store error), `DELETE /api/sources/clear` in `index.js` still
answers 200 — not 500 — and the registry, holding one source before the
request, has been emptied rather than left as it was. -/
theorem claim_c3_counterexample :
    (clearHandler false true [sampleSource] none).status = 200 ∧
    ¬ (clearHandler false true [sampleSource] none).status = 500 ∧
    ¬ (clearHandler false true [sampleSource] none).registry = [sampleSource] := by
  refine ⟨rfl, by decide, ?_⟩
  intro h
  simpa [clearHandler] using congrArg List.length h

/-- Claim C3, amended: `DELETE /api/sources/clear` always responds
`200 {message, totalSources: 0}` — store errors during collection
deletion / recreation are caught and ignored — and the registry is emptied
unconditionally, so a failed store operation does not preserve the
pre-request sources state. -/
theorem claim_c3_clear_response :
    ∀ (deleteOk createOk : Bool) (registry : List SourceInfo) (st : Store),
      (clearHandler deleteOk createOk registry st).status = 200 ∧
      (clearHandler deleteOk createOk registry st).totalSources = 0 ∧
      (clearHandler deleteOk createOk registry st).registry = [] := by
  intro deleteOk createOk registry st
  cases deleteOk <;> cases createOk <;> simp [clearHandler]

/-- Claim C7: `ensureCollection()` is idempotent — a second call right
after a first produces the same collection state — and when the collection
already exists it is a no-op that never erases and recreates it. -/
theorem claim_c7_ensure_collection_idempotent :
    ∀ st : Store,
      ensureCollection (ensureCollection st) = ensureCollection st ∧
      (∀ col, st = some col → ensureCollection st = st) := by
  intro st
  cases st <;> simp [ensureCollection]

/-- Claim C7 witness: on an existing nonempty collection,
`ensureCollection` is a no-op, and repeating it changes nothing. -/
theorem claim_c7_witness :
    ensureCollection (some ⟨3072, "Cosine", [⟨"The sky is blue.", sampleMd⟩]⟩) =
      some ⟨3072, "Cosine", [⟨"The sky is blue.", sampleMd⟩]⟩ ∧
    ensureCollection (ensureCollection
        (some ⟨3072, "Cosine", [⟨"The sky is blue.", sampleMd⟩]⟩)) =
      ensureCollection (some ⟨3072, "Cosine", [⟨"The sky is blue.", sampleMd⟩]⟩) :=
  ⟨(claim_c7_ensure_collection_idempotent _).2 _ rfl,
   (claim_c7_ensure_collection_idempotent _).1⟩

/-- Claim C9: the excerpt stored for an ingested text is truncated to the
fixed 200-character cap regardless of input length: any text of at least
200 characters yields an excerpt of exactly 200 + 3 characters (cap plus
the three-character ellipsis marker). -/
theorem claim_c9_excerpt_truncated :
    ∀ content : String, 200 ≤ content.length →
      (excerptOf content).length = 203 := by
  intro content h
  have hdata : 200 ≤ content.data.length := h
  show (content.data.take 200 ++ "...".data).length = 203
  rw [List.length_append, List.length_take]
  have h3 : ("...".data).length = 3 := rfl
  omega

/-- Claim C9 witness: ingesting a 10000-character text yields an excerpt
of exactly 203 characters. -/
theorem claim_c9_witness :
    200 ≤ longText.length ∧ (excerptOf longText).length = 203 := by
  have hlen : longText.length = 10000 := by
    show (List.replicate 10000 'a').length = 10000
    exact List.length_replicate 10000 'a'
  exact ⟨by omega, claim_c9_excerpt_truncated longText (by omega)⟩

/-- Claim C10, counterexample: the excerpt can equal the original text
verbatim — for the 203-character text made of 200 letters a followed by
three dots, `content.substring(0, 200) + "..."` reproduces the text
exactly, refuting that the excerpt never equals the original. -/
theorem claim_c10_counterexample :
    excerptOf selfExcerptText = selfExcerptText := by
  apply String.ext
  show selfExcerptText.data.take 200 ++ "...".data = selfExcerptText.data
  have hdata : selfExcerptText.data = List.replicate 200 'a' ++ "...".data := rfl
  rw [hdata, List.take_left' (List.length_replicate 200 'a')]

/-- Claim C10, amended: the stored excerpt equals the first
min(200, length) characters of the text followed by the three-character
ellipsis marker, the marker being appended even when the text is shorter
than 200 characters (so the excerpt then is the whole text plus the
marker); the excerpt differs from the original text whenever the original
is not exactly 203 characters long. -/
theorem claim_c10_excerpt_shape :
    ∀ s : String,
      excerptOf s = jsSubstring0 s 200 ++ "..." ∧
      (jsSubstring0 s 200).length = min 200 s.length ∧
      (s.length ≤ 200 → excerptOf s = s ++ "...") ∧
      (¬ s.length = 203 → ¬ excerptOf s = s) := by
  intro s
  refine ⟨rfl, ?_, ?_, ?_⟩
  · show (s.data.take 200).length = min 200 s.data.length
    exact List.length_take 200 s.data
  · intro h
    have htake : s.data.take 200 = s.data := List.take_of_length_le h
    show (⟨s.data.take 200⟩ : String) ++ "..." = s ++ "..."
    rw [htake]
  · intro hlen heq
    have hlens : (excerptOf s).data.length = s.data.length := by rw [heq]
    have hlen2 : (excerptOf s).data.length = min 200 s.data.length + 3 := by
      show (s.data.take 200 ++ "...".data).length = _
      rw [List.length_append, List.length_take]
      rfl
    have hne : ¬ s.data.length = 203 := hlen
    omega

/-- Claim C10 witness: for the five-character text hello, the excerpt is
the whole text with the ellipsis appended and differs from the original. -/
theorem claim_c10_witness :
    excerptOf "hello" = "hello" ++ "..." ∧ ¬ excerptOf "hello" = "hello" :=
  ⟨(claim_c10_excerpt_shape "hello").2.2.1 (by decide),
   (claim_c10_excerpt_shape "hello").2.2.2 (by decide)⟩

/-- Claim C2: every ingest call that fails before or during the vector
store write — missing embedding credential, unreachable store, embedding
failure, or rejected upsert — leaves the Source Registry unchanged; the
registry append happens only after a successful store write. This covers
`createAndStoreEmbeddings` (the text and URL endpoints), the inlined PDF
endpoint, and the optimized `storeEmbeddings`. -/
theorem claim_c2_no_ghost_entries :
    ∀ (apiKeySet storeReachable embedOk : Bool) (env : IngestEnv)
      (text : String) (md : Metadata) (registry : List SourceInfo) (st : Store),
      (∀ e, (createAndStoreEmbeddings apiKeySet storeReachable embedOk
          env text md registry st).outcome = .error e →
        (createAndStoreEmbeddings apiKeySet storeReachable embedOk
          env text md registry st).registry = registry) ∧
      (∀ e, (storeEmbeddings apiKeySet embedOk env text md registry st).outcome
          = .error e →
        (storeEmbeddings apiKeySet embedOk env text md registry st).registry
          = registry) ∧
      (∀ (hasFile pdfLoadOk : Bool) (originalname : String) (pages : List String),
        ¬ (embedPdfHandler hasFile pdfLoadOk apiKeySet embedOk env originalname
            pages registry st).status = 200 →
        (embedPdfHandler hasFile pdfLoadOk apiKeySet embedOk env originalname
            pages registry st).registry = registry) := by
  intro apiKeySet storeReachable embedOk env text md registry st
  refine ⟨?_, ?_, ?_⟩
  · intro e h
    unfold createAndStoreEmbeddings at h ⊢
    cases apiKeySet <;> cases storeReachable <;> cases embedOk <;> simp_all
    cases hf : fromDocumentsStore st [⟨text, md⟩] <;> simp_all
  · intro e h
    unfold storeEmbeddings at h ⊢
    cases apiKeySet <;> cases embedOk <;> simp_all
    cases hf : fromDocumentsStore st [⟨text, md⟩] <;> simp_all
  · intro hasFile pdfLoadOk originalname pages h
    unfold embedPdfHandler at h ⊢
    cases hasFile <;> cases pdfLoadOk <;> cases apiKeySet <;> cases embedOk <;>
      simp_all
    cases hf : fromDocumentsStore st (pages.map fun p =>
        (⟨p, { type := "pdf", title := originalname, timestamp := some env.now }⟩ :
          Chunk)) <;>
      simp_all

/-- Claim C2 witness: with the embedding credential missing, ingesting the
sample text fails and the registry, holding one source before the call, is
exactly that one source afterwards. -/
theorem claim_c2_witness :
    (createAndStoreEmbeddings false true true sampleEnv "The sky is blue."
        sampleMd [sampleSource2] none).outcome =
      .error "OPENAI_API_KEY environment variable is not set" ∧
    (createAndStoreEmbeddings false true true sampleEnv "The sky is blue."
        sampleMd [sampleSource2] none).registry = [sampleSource2] :=
  ⟨rfl, (claim_c2_no_ghost_entries false true true sampleEnv "The sky is blue."
      sampleMd [sampleSource2] none).1 _ rfl⟩

/-- Claim C4: removing an id that is present in the registry answers 200,
removes exactly the first entry carrying that id, and shrinks the registry
by one; removing an id that no entry carries answers 404 and leaves the
registry unchanged. -/
theorem claim_c4_remove :
    ∀ (id : String) (registry : List SourceInfo) (st : Store),
      ((∃ s ∈ registry, s.id = id) →
        (removeHandler id registry st).status = 200 ∧
        (removeHandler id registry st).registry.length + 1 = registry.length ∧
        ∃ l1 s l2, registry = l1 ++ s :: l2 ∧ s.id = id ∧
          (∀ x ∈ l1, ¬ x.id = id) ∧
          (removeHandler id registry st).registry = l1 ++ l2) ∧
      ((∀ s ∈ registry, ¬ s.id = id) →
        (removeHandler id registry st).status = 404 ∧
        (removeHandler id registry st).registry = registry) := by
  intro id registry st
  constructor
  · rintro ⟨s, hmem, hid⟩
    have hex : ∃ x, x ∈ registry ∧ (x.id == id) = true :=
      ⟨s, hmem, by simp [hid]⟩
    obtain ⟨i, hi⟩ : ∃ i, registry.findIdx? (fun x => x.id == id) = some i :=
      ⟨_, List.findIdx?_eq_some_of_exists hex⟩
    obtain ⟨hlt, hpi, hbefore⟩ := List.findIdx?_eq_some_iff_getElem.mp hi
    have hdecomp : registry =
        registry.take i ++ registry[i] :: registry.drop (i + 1) := by
      conv_lhs => rw [← List.take_append_drop i registry]
      rw [List.drop_eq_getElem_cons hlt]
    have herase : registry.eraseIdx i = registry.take i ++ registry.drop (i + 1) :=
      List.eraseIdx_eq_take_drop_succ registry i
    refine ⟨?_, ?_, registry.take i, registry[i], registry.drop (i + 1),
        hdecomp, by simpa using hpi, ?_, ?_⟩
    · simp [removeHandler, hi]
    · simp only [removeHandler, hi]
      rw [List.length_eraseIdx_of_lt hlt]
      omega
    · intro x hx
      obtain ⟨j, hj, hxj⟩ := List.getElem_of_mem hx
      have hjlt : j < i := by
        have := hj
        rw [List.length_take] at this
        omega
      have hxval : x = registry[j] := by
        rw [← hxj]
        exact (List.getElem_take registry).symm ▸ rfl
      have := hbefore j hjlt
      simp only [hxval]
      simpa using this
    · simp only [removeHandler, hi]
      exact herase
  · intro hall
    have hnone : registry.findIdx? (fun x => x.id == id) = none := by
      rw [List.findIdx?_eq_none_iff]
      intro x hx
      simpa using hall x hx
    exact ⟨by simp [removeHandler, hnone], by simp [removeHandler, hnone]⟩

/-- Claim C4 witness: in a two-source registry, removing the second
source's id answers 200 and leaves exactly the first source; removing an
unknown id answers 404 and changes nothing. -/
theorem claim_c4_witness :
    (removeHandler sampleSource2.id [sampleSource, sampleSource2] none).status
        = 200 ∧
    (removeHandler sampleSource2.id [sampleSource, sampleSource2]
        none).registry.length + 1 = 2 ∧
    (removeHandler "missing" [sampleSource, sampleSource2] none).status = 404 ∧
    (removeHandler "missing" [sampleSource, sampleSource2] none).registry
        = [sampleSource, sampleSource2] := by
  have h1 := (claim_c4_remove sampleSource2.id [sampleSource, sampleSource2]
      none).1 ⟨sampleSource2, by simp, rfl⟩
  have h2 := (claim_c4_remove "missing" [sampleSource, sampleSource2]
      none).2 (by decide)
  exact ⟨h1.1, h1.2.1, h2.1, h2.2⟩

/-- Claim C5: a `remove` call never modifies the vector store — the
handler makes no Qdrant call — and after a successful ingest followed by
removing the new source's id, the ingested chunk is still among the
store's points (only the registry entry is gone). -/
theorem claim_c5_remove_keeps_vectors :
    ∀ (id : String) (env : IngestEnv) (text : String) (md : Metadata)
      (registry : List SourceInfo) (st : Store),
      (removeHandler id registry st).store = st ∧
      ((createAndStoreEmbeddings true true true env text md registry st).outcome
          = .ok () →
        (⟨text, md⟩ : Chunk) ∈ storeChunks
          (createAndStoreEmbeddings true true true env text md registry st).store ∧
        (⟨text, md⟩ : Chunk) ∈ storeChunks
          (removeHandler (genId env.t env.r)
            (createAndStoreEmbeddings true true true env text md registry st).registry
            (createAndStoreEmbeddings true true true env text md registry st).store).store) := by
  intro id env text md registry st
  have hframe : ∀ (i : String) (reg : List SourceInfo) (s : Store),
      (removeHandler i reg s).store = s := by
    intro i reg s
    unfold removeHandler
    cases reg.findIdx? (fun x => x.id == i) <;> simp
  refine ⟨hframe id registry st, ?_⟩
  intro hok
  have hmem : (⟨text, md⟩ : Chunk) ∈ storeChunks
      (createAndStoreEmbeddings true true true env text md registry st).store := by
    unfold createAndStoreEmbeddings at hok ⊢
    cases st with
    | none => simp [fromDocumentsStore, storeChunks]
    | some col =>
        by_cases hdim : embeddingDim = col.size
        · simp [fromDocumentsStore, hdim, storeChunks]
        · simp [fromDocumentsStore, hdim] at hok
  exact ⟨hmem, by rw [hframe]; exact hmem⟩

/-- Claim C5 witness: ingesting the sample text into an empty store
succeeds, and removing the resulting source id leaves the stored chunk in
place. -/
theorem claim_c5_witness :
    (createAndStoreEmbeddings true true true sampleEnv "The sky is blue."
        sampleMd [] none).outcome = .ok () ∧
    (⟨"The sky is blue.", sampleMd⟩ : Chunk) ∈ storeChunks
      (removeHandler (genId sampleEnv.t sampleEnv.r)
        (createAndStoreEmbeddings true true true sampleEnv "The sky is blue."
          sampleMd [] none).registry
        (createAndStoreEmbeddings true true true sampleEnv "The sky is blue."
          sampleMd [] none).store).store :=
  ⟨rfl, ((claim_c5_remove_keeps_vectors "unused" sampleEnv "The sky is blue."
      sampleMd [] none).2 rfl).2⟩

/-- A sample chunk as stored by ingesting the sample text. -/
def sampleChunk : Chunk := ⟨"The sky is blue.", sampleMd⟩

/-- An infix of a list is an infix of that list surrounded by anything. -/
lemma isInfix_append_of_isInfix {α : Type} {x m : List α}
    (h : x <:+: m) (p q : List α) : x <:+: p ++ (m ++ q) := by
  obtain ⟨u, v, huv⟩ := h
  refine ⟨p ++ u, v ++ q, ?_⟩
  rw [← huv]
  simp [List.append_assoc]

/-- The system prompt, reassociated into its five pieces. -/
lemma generateSystemPrompt_data (registry : List SourceInfo) (cs : List Chunk) :
    (generateSystemPrompt registry cs).data =
      promptPrefix.data ++ ((sourcesSummary registry).data ++
        (promptMid.data ++ ((renderChunks cs).data ++ promptSuffix.data))) := by
  simp [generateSystemPrompt, String.data_append, List.append_assoc]

/-- Every registered source's summary line occurs verbatim in the system
prompt. -/
lemma sourceLine_infix_prompt {s : SourceInfo} {registry : List SourceInfo}
    (cs : List Chunk) (hs : s ∈ registry) :
    (sourceLine s).data <:+: (generateSystemPrompt registry cs).data := by
  have hsum : (sourceLine s).data <:+: (sourcesSummary registry).data :=
    joinSep_data_infix "\n" (List.mem_map_of_mem sourceLine hs)
  rw [generateSystemPrompt_data]
  exact isInfix_append_of_isInfix hsum _ _

/-- Every retrieved fragment's rendering occurs verbatim in the system
prompt. -/
lemma renderChunk_infix_prompt {c : Chunk} {cs : List Chunk}
    (registry : List SourceInfo) (hc : c ∈ cs) :
    (renderChunk c).data <:+: (generateSystemPrompt registry cs).data := by
  have h1 : (renderChunk c).data <:+: (joinSep ",\n" (cs.map renderChunk)).data :=
    joinSep_data_infix ",\n" (List.mem_map_of_mem renderChunk hc)
  have h2 : (joinSep ",\n" (cs.map renderChunk)).data <:+: (renderChunks cs).data := by
    have hrc : (renderChunks cs).data =
        "[\n".data ++ ((joinSep ",\n" (cs.map renderChunk)).data ++ "\n]".data) := by
      simp [renderChunks, String.data_append, List.append_assoc]
    rw [hrc]
    exact isInfix_append_of_isInfix List.infix_rfl _ _
  have h3 : (renderChunks cs).data <:+: (generateSystemPrompt registry cs).data := by
    rw [generateSystemPrompt_data]
    refine ⟨promptPrefix.data ++ ((sourcesSummary registry).data ++ promptMid.data),
      promptSuffix.data, ?_⟩
    simp [List.append_assoc]
  exact h1.trans (h2.trans h3)

/-- Claim C6: every chat request retrieves with exactly k = 5, the system
prompt is the fixed template around the sources summary and the rendering
of the retrieved fragments in their store-ranking order (the fragment
block is the order-preserving join of the per-fragment renderings), every
registered source's type-and-title line occurs in the prompt, every
retrieved fragment occurs in the prompt, and the returned sources list is
the raw retrieved list itself. -/
theorem claim_c6_chat_retrieval :
    ∀ (registry : List SourceInfo) (search : Nat → List Chunk)
      (complete : String → String → String) (q : String),
      (chat registry search complete q).sourceDocuments = search 5 ∧
      (chat registry search complete q).text =
        complete (generateSystemPrompt registry (search 5)) q ∧
      generateSystemPrompt registry (search 5) =
        promptPrefix ++ sourcesSummary registry ++ promptMid ++
          renderChunks (search 5) ++ promptSuffix ∧
      renderChunks (search 5) =
        "[\n" ++ joinSep ",\n" ((search 5).map renderChunk) ++ "\n]" ∧
      (∀ s ∈ registry,
        (sourceLine s).data <:+: (generateSystemPrompt registry (search 5)).data) ∧
      (∀ c ∈ search 5,
        (renderChunk c).data <:+: (generateSystemPrompt registry (search 5)).data) := by
  intro registry search complete q
  exact ⟨rfl, rfl, rfl, rfl,
    fun s hs => sourceLine_infix_prompt (search 5) hs,
    fun c hc => renderChunk_infix_prompt registry hc⟩

/-- Claim C6 witness: for a one-source registry and a retriever returning
one chunk, the chat result's sources are that chunk and the source's
summary line and the chunk's rendering both occur in the prompt. -/
theorem claim_c6_witness :
    (chat [sampleSource] (fun _ => [sampleChunk])
        (fun _ _ => "answer") "What color is the sky?").sourceDocuments
      = [sampleChunk] ∧
    (sourceLine sampleSource).data <:+:
      (generateSystemPrompt [sampleSource] [sampleChunk]).data ∧
    (renderChunk sampleChunk).data <:+:
      (generateSystemPrompt [sampleSource] [sampleChunk]).data := by
  have h := claim_c6_chat_retrieval [sampleSource] (fun _ => [sampleChunk])
    (fun _ _ => "answer") "What color is the sky?"
  exact ⟨h.1, h.2.2.2.2.1 sampleSource (by simp), h.2.2.2.2.2 sampleChunk (by simp)⟩

/-- A registry obtained from two ingestions that happened to draw the same
millisecond timestamp and the same random suffix. -/
def dupRegistry : List SourceInfo :=
  updateGlobalContext 5 "abc" "t2" sampleMd2 "Grass is green."
    (updateGlobalContext 5 "abc" "t1" sampleMd "The sky is blue." [])

/-- Claim C8, counterexample: nothing in the code prevents two ingestions
from drawing the same `Date.now()` value and the same `Math.random()`
suffix; the registry then holds two distinct Source entries with the very
same id, violating the unconditional uniqueness claim. -/
theorem claim_c8_counterexample :
    mkSourceInfo 5 "abc" "t1" sampleMd "The sky is blue." ∈ dupRegistry ∧
    mkSourceInfo 5 "abc" "t2" sampleMd2 "Grass is green." ∈ dupRegistry ∧
    ¬ mkSourceInfo 5 "abc" "t1" sampleMd "The sky is blue."
        = mkSourceInfo 5 "abc" "t2" sampleMd2 "Grass is green." ∧
    (mkSourceInfo 5 "abc" "t1" sampleMd "The sky is blue.").id
      = (mkSourceInfo 5 "abc" "t2" sampleMd2 "Grass is green.").id := by
  decide

/-- Claim C8, amended: ids of entries generated at ingestion time are
distinct whenever the two ingestions drew different
(`Date.now()`, random-suffix) pairs — the id template is injective in that
pair — but uniqueness rests entirely on those draws never repeating; the
code performs no duplicate check. -/
theorem claim_c8_id_uniqueness :
    ∀ (t1 t2 : Nat) (r1 r2 now1 now2 : String) (md1 md2 : Metadata)
      (c1 c2 : String),
      ¬ (t1 = t2 ∧ r1 = r2) →
      ¬ (mkSourceInfo t1 r1 now1 md1 c1).id = (mkSourceInfo t2 r2 now2 md2 c2).id := by
  intro t1 t2 r1 r2 now1 now2 md1 md2 c1 c2 hne heq
  exact hne (genId_inj heq)

/-- Claim C8 witness: ingestions at two different millisecond timestamps
get distinct ids. -/
theorem claim_c8_witness :
    ¬ ((1 : Nat) = 2 ∧ "abc" = "abc") ∧
    ¬ (mkSourceInfo 1 "abc" "t1" sampleMd "x").id
        = (mkSourceInfo 2 "abc" "t2" sampleMd2 "y").id :=
  ⟨by decide,
   claim_c8_id_uniqueness 1 2 "abc" "abc" "t1" "t2" sampleMd sampleMd2 "x" "y"
     (by decide)⟩

/-- Claim C1 (the bug, evaluated): after a successful clear the registry is
empty and the collection exists, empty and queryable — but it was recreated
with vector size 1536, while every ingestion embeds with
text-embedding-3-large whose dimensionality is 3072 (the size
`ensureCollection` and the README use), so the subsequent ingest of the
round-trip is rejected by the store with a dimension error instead of
succeeding. -/
theorem claim_c1_clear_dimension_mismatch :
    (clearHandler true true [sampleSource]
        (some ⟨3072, "Cosine", [sampleChunk]⟩)).registry = [] ∧
    (clearHandler true true [sampleSource]
        (some ⟨3072, "Cosine", [sampleChunk]⟩)).store
      = some ⟨1536, "Cosine", []⟩ ∧
    ensureCollection none = some ⟨3072, "Cosine", []⟩ ∧
    embeddingDim = 3072 ∧
    ¬ (1536 : Nat) = embeddingDim ∧
    (createAndStoreEmbeddings true true true sampleEnv "The sky is blue."
        sampleMd []
        (clearHandler true true [sampleSource]
          (some ⟨3072, "Cosine", [sampleChunk]⟩)).store).outcome
      = .error "Bad Request: Vector dimension error" :=
  ⟨rfl, rfl, rfl, rfl, by decide, rfl⟩

end NotebookLM
